import Mathlib

/-!
Verification of the sustainability health-check pipeline.

This file shallowly embeds the algorithmic core of the repository
(`src/mapping/mapper.ts`, `src/mapping/synonyms.ts`,
`src/validation/validator.ts`, `src/kpi/engine.ts`, the store in
`src/state/store.ts` and the wizard navigation in `src/ui/Wizard.ts` and
the step components) into Lean and proves the spec's claims about it.

Modelling conventions:
* JavaScript numbers are modelled as exact rationals (`ℚ`); `NaN` is
  modelled by `Option` (`none`) where the code can produce it.
* JavaScript cell values flowing through mapping are modelled by the
  inductive `Cell` (null, undefined, finite number, string).
* Strings are Lean `String`s, but all character-level operations are
  re-implemented structurally over `String.data` so that they evaluate
  inside the kernel.  `lowerChar` models `toLowerCase` on ASCII (the
  synonym table and all inputs of interest are ASCII); `jsIsSpace`
  models the ASCII part of the regex class `\s`.
* Aliasing of the KPI array between the live state and a locked
  snapshot (`store.lock` stores `kpis: state.kpis` without copying) is
  modelled with an explicit arena (`heap`) of KPI lists addressed by
  index; `structuredClone` in `store.update` preserves sharing inside
  the cloned graph, which in the arena model means: an in-place edit
  mutates the cell both references point to.
-/

/-! ### Character and string primitives (structural re-implementations) -/

/-- ASCII lower-casing of one character, models `String.prototype.toLowerCase`
on the ASCII range (all headers, synonyms and keywords of interest are ASCII). -/
def lowerChar (c : Char) : Char :=
  if 'A' ≤ c ∧ c ≤ 'Z' then Char.ofNat (c.toNat + 32) else c

/-- Lower-case a string, character by character. -/
def lowerString (s : String) : String := ⟨s.data.map lowerChar⟩

/-- `hay.includes(needle)`: substring containment, models
`String.prototype.includes`. -/
def includesStr (hay needle : String) : Bool :=
  decide (needle.data <:+: hay.data)

/-- `s.startsWith(p)`, models `String.prototype.startsWith`. -/
def startsWithStr (s p : String) : Bool :=
  p.data.isPrefixOf s.data

/-- ASCII part of the JavaScript regex class `\s` (space, tab, line feed,
vertical tab, form feed, carriage return).  Unicode space characters are
not modelled; no input of interest contains them. -/
def jsIsSpace (c : Char) : Bool :=
  c = ' ' ∨ c = '\t' ∨ c = '\n' ∨ c = Char.ofNat 11 ∨ c = Char.ofNat 12 ∨ c = '\r'

/-- `s.trim()`: strip `\s` characters from both ends. -/
def trimChars (cs : List Char) : List Char :=
  ((cs.dropWhile jsIsSpace).reverse.dropWhile jsIsSpace).reverse

/-- State machine for `replace(/\s+|[_-]+/g, ' ')`: a maximal run of `\s`
characters, or a maximal run of `[_-]` characters, is replaced by a single
space.  The state records whether we are inside a whitespace run
(`some true`) or inside a `[_-]` run (`some false`). -/
def collapseAux : Option Bool → List Char → List Char
  | _, [] => []
  | st, c :: cs =>
    if jsIsSpace c then
      if st = some true then collapseAux (some true) cs
      else ' ' :: collapseAux (some true) cs
    else if c = '_' ∨ c = '-' then
      if st = some false then collapseAux (some false) cs
      else ' ' :: collapseAux (some false) cs
    else c :: collapseAux none cs

/-- `normalizeHeader` from `src/mapping/synonyms.ts`:
`h.toLowerCase().replace(/\s+|[_-]+/g, ' ').trim()`. -/
def normalizeHeader (h : String) : String :=
  ⟨trimChars (collapseAux none (h.data.map lowerChar))⟩

/-! ### JavaScript cell values -/

/-- An untyped spreadsheet cell value as it appears in the mapping layer:
`null`, `undefined`, a (finite) number, or a string. -/
inductive Cell where
  | nullV : Cell
  | undefinedV : Cell
  | num : ℚ → Cell
  | str : String → Cell
deriving DecidableEq, Repr

/-- `String(n)` for a number.  Exact only for integers; JavaScript's
shortest-round-trip decimal formatting of non-integers is not modelled
(no verified claim depends on the text form of a numeric cell). -/
def jsNumToString (q : ℚ) : String :=
  if q.den = 1 then toString q.num else toString q.num ++ "/" ++ toString q.den

/-- `String(v)` on a cell (`String(null) = "null"`,
`String(undefined) = "undefined"`). -/
def jsString : Cell → String
  | .nullV => "null"
  | .undefinedV => "undefined"
  | .num q => jsNumToString q
  | .str s => s

/-- JavaScript falsiness of a cell (`null`, `undefined`, `''` and `0` are
falsy). -/
def isFalsy : Cell → Bool
  | .nullV => true
  | .undefinedV => true
  | .num q => q = 0
  | .str s => s = ""

/-- The nullish-coalescing operator `a ?? b` on cells. -/
def nullish (c d : Cell) : Cell :=
  match c with
  | .nullV => d
  | .undefinedV => d
  | _ => c

/-! ### `Number(string)` on the post-strip alphabet -/

/-- Numeric value of a digit list, most significant first. -/
def natOfDigits (ds : List Char) : ℕ :=
  ds.foldl (fun a c => a * 10 + (c.toNat - 48)) 0

/-- Parse an unsigned decimal `digits [. digits]` that must span the whole
input and contain at least one digit.  Models the relevant fragment of the
`Number()` string grammar: after `toNum` strips every character outside
`[0-9.-]`, the input alphabet is exactly digits, `.` and `-`, so the hex,
exponent, `Infinity` and whitespace productions are unreachable. -/
def parseUnsigned (cs : List Char) : Option ℚ :=
  let intPart := cs.takeWhile Char.isDigit
  let rest := cs.dropWhile Char.isDigit
  match rest with
  | [] => if intPart = [] then none else some (natOfDigits intPart)
  | '.' :: rest2 =>
    let fracPart := rest2.takeWhile Char.isDigit
    let rest3 := rest2.dropWhile Char.isDigit
    if rest3 ≠ [] then none
    else if intPart = [] ∧ fracPart = [] then none
    else some ((natOfDigits intPart : ℚ) + (natOfDigits fracPart : ℚ) / 10 ^ fracPart.length)
  | _ => none

/-- `Number(s)` for strings over the alphabet `[0-9.-]` (the only strings
`toNum` ever passes to it): the empty string is `0`, an optional leading
minus negates, anything else must be a decimal literal; `none` is `NaN`. -/
def jsNumber (s : String) : Option ℚ :=
  match s.data with
  | [] => some 0
  | '-' :: rest => (parseUnsigned rest).map (fun q => -q)
  | cs => parseUnsigned cs

/-! ### Schema mapper (`src/mapping/mapper.ts`) -/

/-- The numeric coercion `toNum` inside `applyMapping`:
`null`/`undefined`/`''` give null; a number passes through; a string has
every comma replaced by a dot, is then stripped of every character outside
`[0-9.-]`, and is parsed with `Number`; a non-finite parse gives null. -/
def toNum (v : Cell) : Option ℚ :=
  match v with
  | .nullV => none
  | .undefinedV => none
  | .num q => some q
  | .str s =>
    if s = "" then none
    else
      let replaced := s.data.map (fun c => if c = ',' then '.' else c)
      let stripped := replaced.filter (fun c => c.isDigit ∨ c = '.' ∨ c = '-')
      jsNumber ⟨stripped⟩

/-- Product categories (`src/state/types.ts`). -/
inductive Cat where
  | Cooking : Cat
  | Cooling : Cat
  | Washing : Cat
  | Unknown : Cat
deriving DecidableEq, Repr

/-- The category coercion `toCat` inside `applyMapping`:
`String(v || '').toLowerCase()`, then prefix/substring classification. -/
def toCat (v : Cell) : Cat :=
  let s := lowerString (jsString (if isFalsy v then .str "" else v))
  if startsWithStr s "cook" then .Cooking
  else if startsWithStr s "cool" ∨ includesStr s "fridge" then .Cooling
  else if startsWithStr s "wash" then .Washing
  else .Unknown

/-- A mapped record (`MappedRecord` in `src/state/types.ts`).  The `%`
characters of the optional field names are written `Pct`. -/
structure MappedRecord where
  Product : String
  Category : Cat
  Transport_kgCO2e : Option ℚ
  Materials_kgCO2e : Option ℚ
  Production_kgCO2e : Option ℚ
  Use_kWh_per_year : Option ℚ
  Water_L : Option ℚ
  Recycling_Quota_Pct : Option ℚ
  Local_Quota_Pct : Option ℚ
  EU_Label : Option String
deriving DecidableEq, Repr

/-- One mapping suggestion (`MapSuggestion`). -/
structure MapSuggestion where
  target : String
  fromHeader : Option String
  confidence : ℚ
deriving DecidableEq, Repr

/-- A sheet mapping (`MappingForSheet`). -/
structure MappingForSheet where
  sheetName : String
  headerRowIndex : ℕ
  suggestions : List MapSuggestion
deriving DecidableEq, Repr

/-- The synonym table of `src/mapping/synonyms.ts`, in declaration order
(JavaScript object keys preserve insertion order for string keys). -/
def synonymTable : List (String × List String) :=
  [("Product", ["product", "sku", "item", "model"]),
   ("Category", ["category", "segment", "family", "type"]),
   ("Transport_kgCO2e", ["transport co2", "transport kgco2e", "co2e transport", "logistics co2", "shipping co2"]),
   ("Materials_kgCO2e", ["materials co2", "materials kgco2e", "co2e materials", "material footprint", "bom co2"]),
   ("Production_kgCO2e", ["production co2", "production kgco2e", "co2e production", "manufacturing co2", "factory co2"]),
   ("Use_kWh_per_year", ["use kwh", "kwh per year", "annual kwh", "energy use", "electricity use"]),
   ("Water_L", ["water", "water_l", "water (l)", "liters", "consumption water"]),
   ("Recycling_Quota_%", ["recycling quota", "recycling %", "recycling rate"]),
   ("Local_Quota_%", ["local quota", "local %", "local share"]),
   ("EU_Label", ["eu label", "energy label"])]

/-- Score of one normalized header against the normalized synonym list of
one target: `+1` if some synonym is a substring of the header, `+0.5` more
if the header equals some synonym. -/
def headerScore (syns : List String) (hn : String) : ℚ :=
  (if syns.any (fun s => includesStr hn s) then 1 else 0) +
    (if syns.contains hn then (1 : ℚ) / 2 else 0)

/-- The inner loop of `suggestMapping`: scan the headers in order keeping
the strictly best `(raw header, score)`; the initial best is
`(null, 0)`, so ties keep the earlier header and a score of `0` never
installs a header. -/
def bestHeaderAux (syns : List String) : List (String × String) → (Option String × ℚ) → (Option String × ℚ)
  | [], best => best
  | h :: hs, best =>
    let s := headerScore syns h.2
    bestHeaderAux syns hs (if s > best.2 then (some h.1, s) else best)

/-- `suggestMapping(headers)` from `src/mapping/mapper.ts`. -/
def suggestMapping (headers : List String) : List MapSuggestion :=
  let norm := headers.map (fun h => (h, normalizeHeader h))
  synonymTable.map (fun t =>
    let syns := normalizeHeader t.1 :: t.2.map normalizeHeader
    let best := bestHeaderAux syns norm (none, 0)
    { target := t.1, fromHeader := best.1, confidence := min 1 best.2 })

/-- `applyMapping`: the resolved source header of one canonical field,
`Object.fromEntries(suggestions.map(s => [s.target, s.fromHeader || undefined]))`.
`fromEntries` keeps the last entry for a duplicated key, and `|| undefined`
turns both `null` and the empty string into undefined (`none`). -/
def fieldFrom (mapping : MappingForSheet) (target : String) : Option String :=
  match mapping.suggestions.reverse.find? (fun s => s.target = target) with
  | none => none
  | some s =>
    match s.fromHeader with
    | none => none
    | some h => if h = "" then none else some h

/-- The required canonical targets of `src/mapping/mapper.ts`. -/
def requiredTargets : List String :=
  ["Product", "Category", "Transport_kgCO2e", "Materials_kgCO2e", "Production_kgCO2e", "Use_kWh_per_year"]

/-- A raw row after the worker turned it into a header-keyed object,
modelled as an association list from header to cell. -/
abbrev Row : Type := List (String × Cell)

/-- `r[h]`: property access on a row object; an absent key is `undefined`. -/
def rowGet (r : Row) (h : String) : Cell :=
  match r.find? (fun p => p.1 = h) with
  | some p => p.2
  | none => .undefinedV

/-- `r[fieldFrom[t]!]`: when the field resolved to no header the lookup key
is `undefined` and the access yields `undefined`. -/
def cellFor (r : Row) (h : Option String) : Cell :=
  match h with
  | some hh => rowGet r hh
  | none => .undefinedV

/-- `applyMapping(rows, mapping)` from `src/mapping/mapper.ts`. -/
def applyMapping (rows : List Row) (mapping : MappingForSheet) :
    List MappedRecord × List String :=
  let missing := requiredTargets.filter (fun t => fieldFrom mapping t = none)
  let recs := rows.map (fun r =>
    { Product :=
        match fieldFrom mapping "Product" with
        | some h => jsString (rowGet r h)
        | none => jsString (nullish (rowGet r "Product") (.str ""))
      Category :=
        toCat (match fieldFrom mapping "Category" with
               | some h => rowGet r h
               | none => rowGet r "Category")
      Transport_kgCO2e := toNum (cellFor r (fieldFrom mapping "Transport_kgCO2e"))
      Materials_kgCO2e := toNum (cellFor r (fieldFrom mapping "Materials_kgCO2e"))
      Production_kgCO2e := toNum (cellFor r (fieldFrom mapping "Production_kgCO2e"))
      Use_kWh_per_year := toNum (cellFor r (fieldFrom mapping "Use_kWh_per_year"))
      Water_L := toNum (cellFor r (fieldFrom mapping "Water_L"))
      Recycling_Quota_Pct := toNum (cellFor r (fieldFrom mapping "Recycling_Quota_%"))
      Local_Quota_Pct := toNum (cellFor r (fieldFrom mapping "Local_Quota_%"))
      EU_Label :=
        let s := jsString (nullish (cellFor r (fieldFrom mapping "EU_Label")) (.str ""))
        if s = "" then none else some s
      : MappedRecord })
  (recs, missing)

/-! ### Validator (`src/validation/validator.ts`) -/

/-- Issue severity. -/
inductive Severity where
  | error : Severity
  | warning : Severity
deriving DecidableEq, Repr

/-- One validation issue (`ValidationIssue`). -/
structure ValidationIssue where
  rowIndex : ℕ
  field : String
  severity : Severity
  message : String
deriving DecidableEq, Repr

/-- Traffic-light status. -/
inductive Light where
  | red : Light
  | amber : Light
  | green : Light
deriving DecidableEq, Repr

/-- Aggregate data-quality verdict (`DataQualitySummary`). -/
structure DataQualitySummary where
  status : Light
  issues : List ValidationIssue
deriving DecidableEq, Repr

/-- The four required numeric fields, in the order the validator's `req`
list walks them. -/
inductive ReqField where
  | transport : ReqField
  | materialsF : ReqField
  | production : ReqField
  | useF : ReqField
deriving DecidableEq, Repr

/-- Field name reported in issues. -/
def reqFieldName : ReqField → String
  | .transport => "Transport_kgCO2e"
  | .materialsF => "Materials_kgCO2e"
  | .production => "Production_kgCO2e"
  | .useF => "Use_kWh_per_year"

/-- Value of a required field in a record.  `none` covers both `null` and
`NaN` (`toNum` never produces `NaN`, and the code treats the two alike). -/
def reqFieldVal (r : MappedRecord) : ReqField → Option ℚ
  | .transport => r.Transport_kgCO2e
  | .materialsF => r.Materials_kgCO2e
  | .production => r.Production_kgCO2e
  | .useF => r.Use_kWh_per_year

/-- The validator's `req` iteration order. -/
def reqFields : List ReqField := [.transport, .materialsF, .production, .useF]

/-- The if/else-if chain of `validate` for one field of one record: at most
one issue, checked in the order missing → negative → suspiciously large. -/
def issueFor (row : ℕ) (f : ReqField) (v : Option ℚ) : Option ValidationIssue :=
  match v with
  | none => some ⟨row, reqFieldName f, .error, "Missing required value"⟩
  | some q =>
    if q < 0 then some ⟨row, reqFieldName f, .error, "Negative value"⟩
    else if q > 10 ^ 7 then some ⟨row, reqFieldName f, .warning, "Suspiciously large"⟩
    else none

/-- Issues of one record (row index already 1-based). -/
def recordIssues (row : ℕ) (r : MappedRecord) : List ValidationIssue :=
  reqFields.flatMap (fun f => (issueFor row f (reqFieldVal r f)).toList)

/-- The `records.forEach((r, idx) => ...)` loop with `row = idx + 1`. -/
def validateAux : ℕ → List MappedRecord → List ValidationIssue
  | _, [] => []
  | i, r :: rs => recordIssues (i + 1) r ++ validateAux (i + 1) rs

/-- `validate(records)` from `src/validation/validator.ts`. -/
def validate (records : List MappedRecord) : DataQualitySummary :=
  let issues := validateAux 0 records
  { status :=
      if issues.any (fun i => i.severity = .error) then .red
      else if issues.length ≠ 0 then .amber
      else .green
    issues := issues }

/-! ### KPI engine (`src/kpi/engine.ts`) -/

/-- Grid factor (`GridFactors`).  The TypeScript type declares `factor` as
`number`, but the engine still guards it with `?? 0.25`, so it is modelled
as optional. -/
structure GridFactors where
  region : String
  factor : Option ℚ
deriving DecidableEq, Repr

/-- Thresholds (`Thresholds`). -/
structure Thresholds where
  usePhasePercentRed : ℚ
  materialsKgRed : ℚ
  productionKgGreen : ℚ
deriving DecidableEq, Repr

/-- Per-product KPI result (`KPIResult`). -/
structure KPIResult where
  Product : String
  Category : Cat
  UsePhase_CO2e : ℚ
  Total_CO2e : ℚ
  UsePhase_Share_Pct : ℚ
  sbTransport : ℚ
  sbMaterials : ℚ
  sbProduction : ℚ
  sbUse : ℚ
  stUsePhase : Light
  stMaterials : Light
  stProduction : Light
deriving DecidableEq, Repr

/-- `round(n) = Math.round(n * 100) / 100`.  `Math.round` rounds to the
nearest integer with ties toward positive infinity, i.e. `⌊x + 1/2⌋`. -/
def round2 (q : ℚ) : ℚ := (⌊q * 100 + 1 / 2⌋ : ℚ) / 100

/-- `computeKPIs` on a single record (the body of the `records.map`). -/
def computeKPI (r : MappedRecord) (grid : GridFactors)
    (lifetimeYears : List (Cat × ℚ)) (thresholds : Thresholds) : KPIResult :=
  let life := ((lifetimeYears.find? (fun p => p.1 = r.Category)).map Prod.snd).getD 10
  let useKg := (r.Use_kWh_per_year.getD 0) * (grid.factor.getD ((1 : ℚ) / 4)) * life / 1000
  let transport := r.Transport_kgCO2e.getD 0
  let materials := r.Materials_kgCO2e.getD 0
  let production := r.Production_kgCO2e.getD 0
  let total := transport + materials + production + useKg
  let share := if total > 0 then useKg / total * 100 else 0
  { Product := r.Product
    Category := r.Category
    UsePhase_CO2e := round2 useKg
    Total_CO2e := round2 total
    UsePhase_Share_Pct := round2 share
    sbTransport := round2 transport
    sbMaterials := round2 materials
    sbProduction := round2 production
    sbUse := round2 useKg
    stUsePhase :=
      if share ≥ thresholds.usePhasePercentRed then .red
      else if share ≥ thresholds.usePhasePercentRed * (7 : ℚ) / 10 then .amber
      else .green
    stMaterials :=
      if materials ≥ thresholds.materialsKgRed then .red
      else if materials ≥ thresholds.materialsKgRed * (7 : ℚ) / 10 then .amber
      else .green
    stProduction :=
      if production ≤ thresholds.productionKgGreen then .green
      else if production ≤ thresholds.productionKgGreen * (3 : ℚ) / 2 then .amber
      else .red }

/-- `computeKPIs(records, grid, lifetimeYears, thresholds)` from
`src/kpi/engine.ts`. -/
def computeKPIs (records : List MappedRecord) (grid : GridFactors)
    (lifetimeYears : List (Cat × ℚ)) (thresholds : Thresholds) : List KPIResult :=
  records.map (fun r => computeKPI r grid lifetimeYears thresholds)

/-! ### Header auto-detection (worker, `autoDetectHeaderRow`) -/

/-- The fixed keyword hints. -/
def keywordHints : List String :=
  ["transport", "materials", "production", "use", "kwh", "product"]

/-- Score of one cell: `+1` if its lowercased text contains a keyword,
`+0.2` if it is non-empty.  Cells are taken after the `String(cell ?? '')`
stringification the worker performs. -/
def cellScore (cell : String) : ℚ :=
  let v := lowerString cell
  (if keywordHints.any (fun k => includesStr v k) then 1 else 0) +
    (if v.data.length > 0 then (1 : ℚ) / 5 else 0)

/-- Score of a row: the `reduce` over its cells. -/
def rowScore (r : List String) : ℚ :=
  r.foldl (fun acc cell => acc + cellScore cell) 0

/-- The `forEach` scan: keep the strictly best `(index, score)`; the
initial best score is `-Infinity`, modelled as `none`. -/
def bestRowAux : ℕ → Option (ℕ × ℚ) → List (List String) → ℕ × Option (ℕ × ℚ)
  | i, acc, [] => (i, acc)
  | i, acc, r :: rs =>
    let s := rowScore r
    let better := match acc with
      | none => true
      | some b => s > b.2
    bestRowAux (i + 1) (if better then some (i, s) else acc) rs

/-- `autoDetectHeaderRow(rows)`: scan `rows.slice(0, Math.min(20, rows.length))`
and return the best index (`bestIdx` starts at 0, so an empty scan gives 0). -/
def autoDetectHeaderRow (rows : List (List String)) : ℕ :=
  match (bestRowAux 0 none (rows.take 20)).2 with
  | none => 0
  | some b => b.1

/-! ### Store and wizard (`src/state/store.ts`, `src/ui/Wizard.ts`, step
components)

`store.lock` stores the live `state.kpis` array into the snapshot by
reference (`kpis: state.kpis`), and `store.update` passes the state
through `structuredClone`, which preserves sharing inside the cloned
graph.  To make this aliasing expressible, KPI arrays live in an explicit
arena (`heap`); `state.kpis` and a snapshot's `kpis` are indices into it.
`store.set` paths always install a fresh array (fresh index), while an
in-place mutation inside `store.update` rewrites the arena cell, which is
observed through every index that aliases it.  Fields of `WizardState`
not touched by any claim (`files`, `detected`, `busy`) are omitted. -/

/-- Captured sheet data (`store.sheets` values). -/
structure SheetData where
  headers : List String
  rows : List Row
deriving DecidableEq

/-- A locked snapshot (`Snapshot`), with the KPI list held by reference
into the arena, exactly as `store.lock` builds it. -/
structure SnapshotM where
  lockedAt : String
  kpisRef : ℕ
  totalsCount : ℕ
  totalsCO2e : ℚ
  thresholds : Thresholds
deriving DecidableEq

/-- The store's state (`WizardState` plus the KPI-array arena). -/
structure StoreState where
  heap : List (List KPIResult)
  stepIndex : ℕ
  records : List MappedRecord
  dataQuality : Option DataQualitySummary
  kpisRef : ℕ
  lockedSnapshot : Option SnapshotM
  mappings : List (String × MappingForSheet)
  sheets : List (String × SheetData)
  gridFactor : GridFactors
  lifetimeYears : List (Cat × ℚ)
  thresholds : Thresholds
  error : Option String
deriving DecidableEq

/-- The live KPI array (`state.kpis`): dereference the arena. -/
def getKpis (st : StoreState) : List KPIResult :=
  st.heap.getD st.kpisRef []

/-- The KPI list seen through the locked snapshot, if any. -/
def snapshotKpis (st : StoreState) : Option (List KPIResult) :=
  st.lockedSnapshot.map (fun sn => st.heap.getD sn.kpisRef [])

/-- `store.nextStep()`: `stepIndex = Math.min(4, stepIndex + 1)`. -/
def nextStep (st : StoreState) : StoreState :=
  { st with stepIndex := min 4 (st.stepIndex + 1) }

/-- `store.prevStep()`: `stepIndex = Math.max(0, stepIndex - 1)`. -/
def prevStep (st : StoreState) : StoreState :=
  { st with stepIndex := max 0 (st.stepIndex - 1) }

/-- A click on the wizard's navigation button for step `i`
(`renderWizard.sync` in `src/ui/Wizard.ts`): the button is rendered
disabled unless `canGo = i <= stepIndex`, and the click handler checks
`canGo` again before `store.set({ stepIndex: i })`. -/
def navClick (i : ℕ) (st : StoreState) : StoreState :=
  if i ≤ st.stepIndex then { st with stepIndex := i } else st

/-- `store.setKPIs(kpis)`: `store.set({ kpis })` installs the freshly
computed array — a new arena cell. -/
def setKPIs (ks : List KPIResult) (st : StoreState) : StoreState :=
  { st with heap := st.heap ++ [ks], kpisRef := st.heap.length }

/-- `store.lock()`: build the snapshot from the current state.  The KPI
list is stored by reference (`kpis: state.kpis` — the same arena index),
the totals are computed by `reduce`, and the timestamp is the caller's
clock value. -/
def lock (now : String) (st : StoreState) : StoreState :=
  { st with
    lockedSnapshot := some
      { lockedAt := now
        kpisRef := st.kpisRef
        totalsCount := (getKpis st).length
        totalsCO2e := (getKpis st).foldl (fun a b => a + b.Total_CO2e) 0
        thresholds := st.thresholds } }

/-- `store.update(s => ...)` with a mutator that edits the live KPI array
in place (e.g. `s.kpis[0].Total_CO2e = x`).  `structuredClone` preserves
the sharing between `s.kpis` and `s.lockedSnapshot.kpis` in the clone, so
the edit is observed through both references: in the arena model the cell
both indices point to is rewritten. -/
def updateEditKpis (f : List KPIResult → List KPIResult) (st : StoreState) : StoreState :=
  { st with heap := st.heap.set st.kpisRef (f (getKpis st)) }

/-- `store.get().sheets[key]?.rows ?? []` in the Step 2 click handler. -/
def sheetRowsFor (st : StoreState) (key : String) : List Row :=
  match st.sheets.find? (fun p => p.1 = key) with
  | some p => p.2.rows
  | none => []

/-- The `Apply Mapping & Validate` button of Step 2 (`renderStep2`): the
button is disabled unless a mapping exists; the handler takes the first
mapping key, applies the mapping to that sheet's rows, validates, stores
records and data quality, and advances only when the resulting status is
not red. -/
def applyClick (st : StoreState) : StoreState :=
  match st.mappings with
  | [] => st
  | (key, mapping) :: _ =>
    let res := applyMapping (sheetRowsFor st key) mapping
    let dq := validate res.1
    let st1 := { st with records := res.1, dataQuality := some dq }
    if dq.status ≠ .red then nextStep st1 else st1

/-- The `Compute KPIs` button of Step 3 (`renderStep3` in
`src/ui/steps/Step3KPI.ts`): disabled while there are no records; the
handler computes the KPIs, installs them and advances. -/
def computeClick (st : StoreState) : StoreState :=
  if st.records.length = 0 then st
  else
    nextStep (setKPIs (computeKPIs st.records st.gridFactor st.lifetimeYears st.thresholds) st)

/-- The `Lock Baseline` button of Step 4 (`renderStep4`): disabled while
there are no KPIs; the handler locks and advances. -/
def lockClick (now : String) (st : StoreState) : StoreState :=
  if (getKpis st).length = 0 then st
  else nextStep (lock now st)

/-! ### Spec-side definitions and concrete inputs used by the claims -/

/-- Rounding to 2 decimal places with ties away from zero, as §4.5 of the
spec words it ("half-away-from-zero at the 0.01 boundary").  Written from
the spec's words, to be compared with the source's `round2`. -/
def roundHalfAwayFromZero2 (q : ℚ) : ℚ :=
  if 0 ≤ q then (⌊q * 100 + 1 / 2⌋ : ℚ) / 100
  else -((⌊-q * 100 + 1 / 2⌋ : ℚ) / 100)

/-- The record of the spec's KPI example (§8): transport 10, materials 20,
production 30, use 100 kWh/year. -/
def exampleRecord : MappedRecord :=
  { Product := "X", Category := .Cooking
    Transport_kgCO2e := some 10, Materials_kgCO2e := some 20
    Production_kgCO2e := some 30, Use_kWh_per_year := some 100
    Water_L := none, Recycling_Quota_Pct := none, Local_Quota_Pct := none
    EU_Label := none }

/-- Grid factor 0.25 (EU-27 default of the store). -/
def exampleGrid : GridFactors := { region := "EU-27", factor := some ((1 : ℚ) / 4) }

/-- The store's default thresholds. -/
def defaultThresholds : Thresholds :=
  { usePhasePercentRed := 60, materialsKgRed := 200, productionKgGreen := 100 }

/-- A record with a negative half-tie stage value (transport −0.005 kg),
reachable e.g. from the cell text `"-0.005"` through `toNum`. -/
def negTieRecord : MappedRecord :=
  { Product := "N", Category := .Unknown
    Transport_kgCO2e := some (-(1 : ℚ) / 200), Materials_kgCO2e := some 0
    Production_kgCO2e := some 0, Use_kWh_per_year := some 0
    Water_L := none, Recycling_Quota_Pct := none, Local_Quota_Pct := none
    EU_Label := none }

/-- The record of the spec's validation example (§8): transport null,
materials −5, production 0, use 1e8. -/
def badRecord : MappedRecord :=
  { Product := "X", Category := .Cooking
    Transport_kgCO2e := none, Materials_kgCO2e := some (-5)
    Production_kgCO2e := some 0, Use_kWh_per_year := some (10 ^ 8)
    Water_L := none, Recycling_Quota_Pct := none, Local_Quota_Pct := none
    EU_Label := none }

/-- A KPI entry for the snapshot-aliasing scenario (integer-valued fields
so the statement is kernel-decidable). -/
def snapKPI : KPIResult :=
  { Product := "Cooker A", Category := .Cooking
    UsePhase_CO2e := 0, Total_CO2e := 60, UsePhase_Share_Pct := 0
    sbTransport := 10, sbMaterials := 20, sbProduction := 30, sbUse := 0
    stUsePhase := .green, stMaterials := .green, stProduction := .green }

/-- A working state at the Expert Review step whose live KPI array is
`[snapKPI]`, not yet locked. -/
def snapState : StoreState :=
  { heap := [[snapKPI]]
    stepIndex := 3
    records := []
    dataQuality := none
    kpisRef := 0
    lockedSnapshot := none
    mappings := []
    sheets := []
    gridFactor := { region := "EU-27", factor := some ((1 : ℚ) / 4) }
    lifetimeYears := [(.Cooking, 12), (.Cooling, 10), (.Washing, 8), (.Unknown, 10)]
    thresholds := defaultThresholds
    error := none }

/-- A state at the Completeness step with one captured sheet holding a
single empty row: applying the (empty) mapping produces one record whose
four required fields are all null, so validation is red. -/
def redGateState : StoreState :=
  { heap := []
    stepIndex := 1
    records := []
    dataQuality := none
    kpisRef := 0
    lockedSnapshot := none
    mappings := [("f::Data", { sheetName := "Data", headerRowIndex := 0, suggestions := [] })]
    sheets := [("f::Data", { headers := [], rows := [([] : Row)] })]
    gridFactor := { region := "EU-27", factor := some ((1 : ℚ) / 4) }
    lifetimeYears := [(.Cooking, 12), (.Cooling, 10), (.Washing, 8), (.Unknown, 10)]
    thresholds := defaultThresholds
    error := none }

/-! ### Claim theorems -/

/-- C2: the claim says `applyMapping`'s numeric coercion maps `"1,200"` to
1200 and non-numeric text to null.  Evaluating the source's `toNum` at the
claim's own inputs: `"1,200"` yields 1.2 (the global comma-to-dot
replacement happens before stripping, so `"1,200"` becomes the decimal
literal `"1.200"`), and the non-numeric text `"abc"` yields 0 (stripping
leaves the empty string and `Number('') = 0`, which is finite), while
`"50"` does yield 50. -/
theorem toNum_comma_conversion :
    toNum (.str "1,200") = some ((6 : ℚ) / 5) ∧
    ((6 : ℚ) / 5) ≠ 1200 ∧
    toNum (.str "50") = some 50 ∧
    toNum (.str "abc") = some 0 ∧
    some (0 : ℚ) ≠ (none : Option ℚ) := by
  refine ⟨?_, by norm_num, ?_, ?_, by simp⟩ <;>
    simp [toNum, jsNumber, parseUnsigned, natOfDigits] <;> norm_num

/-- C1: the claim says a locked snapshot's KPI values survive any later
mutation of the live KPI list.  Evaluating the store at the failing input:
after `lock`, an in-place edit of the live KPI entries through
`store.update` (whose `structuredClone` preserves the sharing created by
`lock`'s `kpis: state.kpis`) changes the KPI values read back through the
snapshot, while wholesale replacement via `setKPIs` leaves them intact. -/
theorem lock_shares_kpis_reference :
    snapshotKpis (lock "2026-01-01T00:00:00Z" snapState) = some [snapKPI] ∧
    snapshotKpis (updateEditKpis (fun ks => ks.map (fun k => { k with Total_CO2e := 999 }))
        (lock "2026-01-01T00:00:00Z" snapState)) = some [{ snapKPI with Total_CO2e := 999 }] ∧
    ({ snapKPI with Total_CO2e := 999 } : KPIResult).Total_CO2e ≠ snapKPI.Total_CO2e ∧
    snapshotKpis (setKPIs [] (lock "2026-01-01T00:00:00Z" snapState)) = some [snapKPI] := by
  refine ⟨?_, ?_, by norm_num [snapKPI], ?_⟩ <;>
    simp [snapshotKpis, lock, updateEditKpis, setKPIs, getKpis, snapState]

/-- C10: `computeKPIs` returns one result per record, in order, and the
i-th result is computed from the i-th record and carries its `Product`
and `Category` unchanged. -/
theorem computeKPIs_length_and_identity (records : List MappedRecord) (grid : GridFactors)
    (lt : List (Cat × ℚ)) (th : Thresholds) :
    (computeKPIs records grid lt th).length = records.length ∧
    ∀ i, i < records.length →
      ∃ r, records[i]? = some r ∧
        (computeKPIs records grid lt th)[i]? = some (computeKPI r grid lt th) ∧
        (computeKPI r grid lt th).Product = r.Product ∧
        (computeKPI r grid lt th).Category = r.Category := by
  constructor
  · simp [computeKPIs]
  · intro i hi
    refine ⟨records[i], List.getElem?_eq_getElem hi, ?_, ?_, ?_⟩
    · simp [computeKPIs, List.getElem?_eq_getElem hi]
    · simp [computeKPI]
    · simp [computeKPI]

/-- Witness for C10 at a singleton list. -/
theorem computeKPIs_length_and_identity_witness :
    ∃ r, [exampleRecord][0]? = some r ∧
      (computeKPIs [exampleRecord] exampleGrid [(Cat.Cooking, 10)] defaultThresholds)[0]? =
        some (computeKPI r exampleGrid [(Cat.Cooking, 10)] defaultThresholds) ∧
      (computeKPI r exampleGrid [(Cat.Cooking, 10)] defaultThresholds).Product = r.Product ∧
      (computeKPI r exampleGrid [(Cat.Cooking, 10)] defaultThresholds).Category = r.Category :=
  (computeKPIs_length_and_identity [exampleRecord] exampleGrid
    [(Cat.Cooking, 10)] defaultThresholds).2 0 (by decide)

/-- C5: the traffic-light status of each KPI, for every record and
thresholds: UsePhase is red iff share ≥ usePhasePercentRed, amber iff the
share is below red but at least 0.7 of it, else green; Materials follows
the same pattern against materialsKgRed; Production is inverted — green
iff production ≤ productionKgGreen, amber iff it exceeds the green bound
by at most 1.5×, else red. -/
theorem computeKPIs_status_thresholds (r : MappedRecord) (grid : GridFactors)
    (lt : List (Cat × ℚ)) (th : Thresholds) :
    let life := ((lt.find? (fun p => p.1 = r.Category)).map Prod.snd).getD 10
    let useKg := (r.Use_kWh_per_year.getD 0) * (grid.factor.getD ((1 : ℚ) / 4)) * life / 1000
    let materials := r.Materials_kgCO2e.getD 0
    let production := r.Production_kgCO2e.getD 0
    let total := r.Transport_kgCO2e.getD 0 + materials + production + useKg
    let share := if total > 0 then useKg / total * 100 else 0
    let k := computeKPI r grid lt th
    computeKPIs [r] grid lt th = [k] ∧
    (k.stUsePhase = .red ↔ share ≥ th.usePhasePercentRed) ∧
    (k.stUsePhase = .amber ↔ share < th.usePhasePercentRed ∧ share ≥ 7 / 10 * th.usePhasePercentRed) ∧
    (k.stUsePhase = .green ↔ share < th.usePhasePercentRed ∧ share < 7 / 10 * th.usePhasePercentRed) ∧
    (k.stMaterials = .red ↔ materials ≥ th.materialsKgRed) ∧
    (k.stMaterials = .amber ↔ materials < th.materialsKgRed ∧ materials ≥ 7 / 10 * th.materialsKgRed) ∧
    (k.stMaterials = .green ↔ materials < th.materialsKgRed ∧ materials < 7 / 10 * th.materialsKgRed) ∧
    (k.stProduction = .green ↔ production ≤ th.productionKgGreen) ∧
    (k.stProduction = .amber ↔ th.productionKgGreen < production ∧ production ≤ 3 / 2 * th.productionKgGreen) ∧
    (k.stProduction = .red ↔ th.productionKgGreen < production ∧ 3 / 2 * th.productionKgGreen < production) := by
  simp only [computeKPIs, computeKPI, List.map_cons, List.map_nil]
  refine ⟨trivial, ?_, ?_, ?_, ?_, ?_, ?_, ?_, ?_, ?_⟩ <;>
    split_ifs <;> simp_all <;>
      first
        | linarith
        | (constructor <;> intro <;> first | linarith | (constructor <;> linarith))
        | (rintro h1 h2; linarith)
        | (intro h1; constructor <;> linarith)

/-- C4: the use-phase, total and share formulas of `computeKPIs`, for every
record, and the spec's concrete example — transport 10, materials 20,
production 30, use 100 kWh, factor 0.25, life 10 gives use_kg 0.25, total
60.25 (> 60) and share 0.41 % (> 0). -/
theorem computeKPIs_formula_and_example (r : MappedRecord) (grid : GridFactors)
    (lt : List (Cat × ℚ)) (th : Thresholds) :
    let life := ((lt.find? (fun p => p.1 = r.Category)).map Prod.snd).getD 10
    let useKg := (r.Use_kWh_per_year.getD 0) * (grid.factor.getD ((1 : ℚ) / 4)) * life / 1000
    let total := r.Transport_kgCO2e.getD 0 + r.Materials_kgCO2e.getD 0 + r.Production_kgCO2e.getD 0 + useKg
    let share := if total > 0 then useKg / total * 100 else 0
    ((computeKPIs [r] grid lt th).map KPIResult.UsePhase_CO2e = [round2 useKg] ∧
     (computeKPIs [r] grid lt th).map KPIResult.Total_CO2e = [round2 total] ∧
     (computeKPIs [r] grid lt th).map KPIResult.UsePhase_Share_Pct = [round2 share]) ∧
    ((computeKPIs [exampleRecord] exampleGrid [(Cat.Cooking, 10)] defaultThresholds).map
        (fun k => (k.UsePhase_CO2e, k.Total_CO2e, k.UsePhase_Share_Pct)) =
      [((1 : ℚ) / 4, (241 : ℚ) / 4, (41 : ℚ) / 100)] ∧
     (241 : ℚ) / 4 > 60 ∧ (41 : ℚ) / 100 > 0) := by
  refine ⟨⟨?_, ?_, ?_⟩, ?_, by norm_num, by norm_num⟩
  · simp [computeKPIs, computeKPI]
  · simp [computeKPIs, computeKPI]
  · simp [computeKPIs, computeKPI]
  · have h1 : round2 ((1 : ℚ) / 4) = (1 : ℚ) / 4 := by
      norm_num [round2, Int.floor_eq_iff]
    have h2 : round2 ((241 : ℚ) / 4) = (241 : ℚ) / 4 := by
      norm_num [round2, Int.floor_eq_iff]
    have h3 : round2 ((100 : ℚ) / 241) = (41 : ℚ) / 100 := by
      norm_num [round2, Int.floor_eq_iff]
    simp [computeKPIs, computeKPI, exampleRecord, exampleGrid, defaultThresholds]
    norm_num [h1, h2, h3]

/-- C8 (amended): every numeric output of `computeKPIs` is its unrounded
value rounded to 2 decimal places with `Math.round` semantics — ties toward
positive infinity — which coincides with half-away-from-zero rounding for
all non-negative values (but not for negative ties). -/
theorem computeKPIs_round_half_up (r : MappedRecord) (grid : GridFactors)
    (lt : List (Cat × ℚ)) (th : Thresholds) :
    let life := ((lt.find? (fun p => p.1 = r.Category)).map Prod.snd).getD 10
    let useKg := (r.Use_kWh_per_year.getD 0) * (grid.factor.getD ((1 : ℚ) / 4)) * life / 1000
    let transport := r.Transport_kgCO2e.getD 0
    let materials := r.Materials_kgCO2e.getD 0
    let production := r.Production_kgCO2e.getD 0
    let total := transport + materials + production + useKg
    let share := if total > 0 then useKg / total * 100 else 0
    ((computeKPIs [r] grid lt th).map KPIResult.UsePhase_CO2e = [round2 useKg] ∧
     (computeKPIs [r] grid lt th).map KPIResult.Total_CO2e = [round2 total] ∧
     (computeKPIs [r] grid lt th).map KPIResult.UsePhase_Share_Pct = [round2 share] ∧
     (computeKPIs [r] grid lt th).map KPIResult.sbTransport = [round2 transport] ∧
     (computeKPIs [r] grid lt th).map KPIResult.sbMaterials = [round2 materials] ∧
     (computeKPIs [r] grid lt th).map KPIResult.sbProduction = [round2 production] ∧
     (computeKPIs [r] grid lt th).map KPIResult.sbUse = [round2 useKg]) ∧
    (∀ q : ℚ, 0 ≤ q → round2 q = roundHalfAwayFromZero2 q) := by
  constructor
  · refine ⟨?_, ?_, ?_, ?_, ?_, ?_, ?_⟩ <;> simp [computeKPIs, computeKPI]
  · intro q hq
    simp [round2, roundHalfAwayFromZero2, hq]

/-- Witness for C8's amended theorem at a concrete non-negative value. -/
theorem computeKPIs_round_half_up_witness :
    round2 (2 : ℚ) = roundHalfAwayFromZero2 (2 : ℚ) :=
  (computeKPIs_round_half_up exampleRecord exampleGrid [(Cat.Cooking, 10)]
    defaultThresholds).2 2 (by decide)

/-- C8 (counterexample): at the negative tie −0.005 the code's rounding
(`Math.round(n*100)/100`, via the stage-breakdown transport output) gives
0, while half-away-from-zero rounding gives −0.01, so the claim's
"half-away-from-zero … for every real-valued input including negative
values" fails. -/
theorem round_negative_tie_counterexample :
    (computeKPIs [negTieRecord] exampleGrid [] defaultThresholds).map KPIResult.sbTransport = [0] ∧
    roundHalfAwayFromZero2 (-(1 : ℚ) / 200) = -(1 : ℚ) / 100 ∧
    (0 : ℚ) ≠ -(1 : ℚ) / 100 := by
  refine ⟨?_, ?_, by norm_num⟩
  · have h : round2 (-(1 : ℚ) / 200) = 0 := by
      norm_num [round2, Int.floor_eq_iff]
    simp [computeKPIs, computeKPI, negTieRecord, h]
  · norm_num [roundHalfAwayFromZero2, Int.floor_eq_iff]

/-- C3: wizard gating.  A navigation click beyond the current step leaves
the whole state unchanged; a click on any step at or below the current one
(all previously reached) moves there; the Step 2 handler does not advance
when the freshly validated data quality is red; the Step 3 and Step 4
handlers do nothing while their gates (records, KPIs) are unmet; and none
of these operations ever sets the error slot. -/
theorem wizard_navigation_gates (st : StoreState) (i : ℕ) (now : String) :
    (st.stepIndex < i → navClick i st = st) ∧
    (i ≤ st.stepIndex → (navClick i st).stepIndex = i) ∧
    ((navClick i st).error = st.error) ∧
    (st.mappings = [] → applyClick st = st) ∧
    (∀ key mapping rest, st.mappings = (key, mapping) :: rest →
      (validate (applyMapping (sheetRowsFor st key) mapping).1).status = .red →
      (applyClick st).stepIndex = st.stepIndex) ∧
    ((applyClick st).error = st.error) ∧
    (st.records = [] → computeClick st = st) ∧
    ((computeClick st).error = st.error) ∧
    (getKpis st = [] → lockClick now st = st) ∧
    ((lockClick now st).error = st.error) := by
  refine ⟨?_, ?_, ?_, ?_, ?_, ?_, ?_, ?_, ?_, ?_⟩
  · intro h
    simp only [navClick]
    rw [if_neg (by omega)]
  · intro h
    simp [navClick, h]
  · unfold navClick
    split <;> rfl
  · intro h
    simp [applyClick, h]
  · intro key mapping rest h hred
    simp only [applyClick, h, hred]
    simp
  · cases hm : st.mappings with
    | nil => simp [applyClick, hm]
    | cons p rest =>
      obtain ⟨key, mapping⟩ := p
      simp only [applyClick, hm]
      split_ifs <;> rfl
  · intro h
    simp [computeClick, h]
  · unfold computeClick
    split_ifs <;> rfl
  · intro h
    simp [lockClick, h]
  · unfold lockClick
    split_ifs <;> rfl

/-- Witness for C3 at the red-gate state: forward click to step 3 is a
no-op, click back to step 0 lands there, the Step 2 handler does not
advance past Completeness (its validation is red), and the compute and
lock handlers are no-ops with no records / no KPIs. -/
theorem wizard_navigation_gates_witness :
    navClick 3 redGateState = redGateState ∧
    (navClick 0 redGateState).stepIndex = 0 ∧
    (applyClick redGateState).stepIndex = redGateState.stepIndex ∧
    computeClick redGateState = redGateState ∧
    lockClick "2026-01-01" redGateState = redGateState :=
  ⟨(wizard_navigation_gates redGateState 3 "2026-01-01").1 (by decide),
   (wizard_navigation_gates redGateState 0 "2026-01-01").2.1 (by decide),
   (wizard_navigation_gates redGateState 3 "2026-01-01").2.2.2.2.1
     "f::Data" { sheetName := "Data", headerRowIndex := 0, suggestions := [] } []
     rfl (by decide),
   (wizard_navigation_gates redGateState 3 "2026-01-01").2.2.2.2.2.2.1 rfl,
   (wizard_navigation_gates redGateState 3 "2026-01-01").2.2.2.2.2.2.2.2.1 (by decide)⟩

/-- A header's score against a synonym list is non-negative. -/
theorem headerScore_nonneg (syns : List String) (hn : String) : 0 ≤ headerScore syns hn := by
  unfold headerScore
  split_ifs <;> norm_num

/-- The best score never drops below a non-negative starting score. -/
theorem bestHeaderAux_nonneg (syns : List String) (hs : List (String × String))
    (best : Option String × ℚ) (h : 0 ≤ best.2) : 0 ≤ (bestHeaderAux syns hs best).2 := by
  induction hs generalizing best with
  | nil => exact h
  | cons p ps ih =>
    simp only [bestHeaderAux]
    split_ifs with hgt
    · exact ih _ (le_of_lt (lt_of_le_of_lt h hgt))
    · exact ih _ h

/-- If no header strictly beats the current best, the scan keeps it. -/
theorem bestHeaderAux_stay (syns : List String) (hs : List (String × String))
    (best : Option String × ℚ) (h : ∀ p ∈ hs, headerScore syns p.2 ≤ best.2) :
    bestHeaderAux syns hs best = best := by
  induction hs with
  | nil => rfl
  | cons p ps ih =>
    simp only [bestHeaderAux]
    rw [if_neg (by simpa using not_lt.mpr (h p (by simp)))]
    exact ih (fun q hq => h q (by simp [hq]))

/-- C9: for every non-empty header list, `suggestMapping` returns exactly
one suggestion per canonical field (ten, in the synonym table's stable
order), each with confidence in [0,1]; a field for which no header scores
above zero gets confidence 0 and no source header. -/
theorem suggestMapping_one_per_field (headers : List String) (hne : headers ≠ []) :
    (suggestMapping headers).length = 10 ∧
    (suggestMapping headers).map MapSuggestion.target = synonymTable.map Prod.fst ∧
    (∀ s ∈ suggestMapping headers, 0 ≤ s.confidence ∧ s.confidence ≤ 1) ∧
    (∀ (i : ℕ) (t : String × List String), synonymTable[i]? = some t →
      ∃ s, (suggestMapping headers)[i]? = some s ∧ s.target = t.1 ∧
        ((∀ h ∈ headers, headerScore (normalizeHeader t.1 :: t.2.map normalizeHeader)
            (normalizeHeader h) ≤ 0) →
          s.confidence = 0 ∧ s.fromHeader = none)) := by
  refine ⟨?_, ?_, ?_, ?_⟩
  · simp [suggestMapping]
    rfl
  · simp only [suggestMapping, List.map_map]
    rfl
  · intro s hs
    simp only [suggestMapping, List.mem_map] at hs
    obtain ⟨t, _, rfl⟩ := hs
    constructor
    · exact le_min (by norm_num) (bestHeaderAux_nonneg _ _ _ le_rfl)
    · exact min_le_left _ _
  · intro i t ht
    have hmap : (suggestMapping headers)[i]? = some
        { target := t.1,
          fromHeader := (bestHeaderAux (normalizeHeader t.1 :: t.2.map normalizeHeader)
            (headers.map (fun h => (h, normalizeHeader h))) (none, 0)).1,
          confidence := min 1 (bestHeaderAux (normalizeHeader t.1 :: t.2.map normalizeHeader)
            (headers.map (fun h => (h, normalizeHeader h))) (none, 0)).2 } := by
      simp [suggestMapping, ht]
    refine ⟨_, hmap, rfl, ?_⟩
    intro hz
    have hstay : bestHeaderAux (normalizeHeader t.1 :: t.2.map normalizeHeader)
        (headers.map (fun h => (h, normalizeHeader h))) (none, 0) = (none, 0) := by
      apply bestHeaderAux_stay
      intro p hp
      simp only [List.mem_map] at hp
      obtain ⟨h, hh, rfl⟩ := hp
      exact hz h hh
    simp [hstay]

/-- Witness for C9 on a non-empty header list with no matches. -/
theorem suggestMapping_one_per_field_witness :
    (suggestMapping ["zzz"]).length = 10 ∧
    (∀ s ∈ suggestMapping ["zzz"], 0 ≤ s.confidence ∧ s.confidence ≤ 1) :=
  ⟨(suggestMapping_one_per_field ["zzz"] (by decide)).1,
   (suggestMapping_one_per_field ["zzz"] (by decide)).2.2.1⟩

/-- Scan invariant of `bestRowAux` started at a seeded best: either nothing
in the remaining rows strictly beats the seed and it survives, or the
result is the first row attaining the maximum of the remaining scores
above the seed. -/
theorem bestRowAux_some_spec (rs : List (List String)) : ∀ (i : ℕ) (b : ℕ × ℚ),
    ((bestRowAux i (some b) rs).2 = some b ∧
      ∀ j, j < rs.length → rowScore (rs.getD j []) ≤ b.2) ∨
    (∃ k, k < rs.length ∧
      (bestRowAux i (some b) rs).2 = some (i + k, rowScore (rs.getD k [])) ∧
      b.2 < rowScore (rs.getD k []) ∧
      (∀ j, j < rs.length → rowScore (rs.getD j []) ≤ rowScore (rs.getD k [])) ∧
      (∀ j, j < k → rowScore (rs.getD j []) < rowScore (rs.getD k []))) := by
  induction rs with
  | nil =>
    intro i b
    left
    constructor
    · rfl
    · intro j hj
      simp at hj
  | cons r rs ih =>
    intro i b
    by_cases hgt : rowScore r > b.2
    · have hstep : bestRowAux i (some b) (r :: rs) = bestRowAux (i + 1) (some (i, rowScore r)) rs := by
        simp [bestRowAux, hgt]
      rcases ih (i + 1) (i, rowScore r) with ⟨heq, hall⟩ | ⟨k, hk, heq, hlt, hall, hstrict⟩
      · right
        refine ⟨0, by simp, ?_, ?_, ?_, ?_⟩
        · rw [hstep, heq]
          simp
        · simpa using hgt
        · intro j hj
          cases j with
          | zero => simp
          | succ j =>
            simp only [List.getD_cons_succ, List.getD_cons_zero]
            exact hall j (by simpa using hj)
        · intro j hj
          omega
      · right
        refine ⟨k + 1, by simpa using hk, ?_, ?_, ?_, ?_⟩
        · rw [hstep, heq]
          have hik : i + 1 + k = i + (k + 1) := by omega
          rw [hik, List.getD_cons_succ]
        · calc b.2 < rowScore r := hgt
            _ < rowScore ((r :: rs).getD (k + 1) []) := by simpa using hlt
        · intro j hj
          cases j with
          | zero =>
            simp only [List.getD_cons_succ, List.getD_cons_zero]
            exact le_of_lt (by simpa using hlt)
          | succ j =>
            simp only [List.getD_cons_succ]
            exact hall j (by simpa using hj)
        · intro j hj
          cases j with
          | zero =>
            simp only [List.getD_cons_succ, List.getD_cons_zero]
            simpa using hlt
          | succ j =>
            simp only [List.getD_cons_succ]
            exact hstrict j (by omega)
    · have hstep : bestRowAux i (some b) (r :: rs) = bestRowAux (i + 1) (some b) rs := by
        simp [bestRowAux, hgt]
      rcases ih (i + 1) b with ⟨heq, hall⟩ | ⟨k, hk, heq, hlt, hall, hstrict⟩
      · left
        constructor
        · rw [hstep, heq]
        · intro j hj
          cases j with
          | zero => simpa using le_of_not_lt hgt
          | succ j =>
            simp only [List.getD_cons_succ]
            exact hall j (by simpa using hj)
      · right
        refine ⟨k + 1, by simpa using hk, ?_, ?_, ?_, ?_⟩
        · rw [hstep, heq]
          have hik : i + 1 + k = i + (k + 1) := by omega
          rw [hik, List.getD_cons_succ]
        · simpa using hlt
        · intro j hj
          cases j with
          | zero =>
            simp only [List.getD_cons_succ, List.getD_cons_zero]
            exact le_trans (le_of_not_lt hgt) (le_of_lt hlt)
          | succ j =>
            simp only [List.getD_cons_succ]
            exact hall j (by simpa using hj)
        · intro j hj
          cases j with
          | zero =>
            simp only [List.getD_cons_succ, List.getD_cons_zero]
            exact lt_of_le_of_lt (le_of_not_lt hgt) hlt
          | succ j =>
            simp only [List.getD_cons_succ]
            exact hstrict j (by omega)

/-- Evaluation of the detector on the spec's example rows. -/
theorem bestRow_example_eval :
    autoDetectHeaderRow [["x", "y"], ["Product", "Transport_kgCO2e", "Use_kWh_per_year"]] = 1 := by
  have hx : cellScore "x" = 1 / 5 := by
    have h1 : (keywordHints.any fun k => includesStr (lowerString "x") k) = false := by decide
    have h2 : (lowerString "x").data.length = 1 := by decide
    simp [cellScore, h1, h2]
  have hy : cellScore "y" = 1 / 5 := by
    have h1 : (keywordHints.any fun k => includesStr (lowerString "y") k) = false := by decide
    have h2 : (lowerString "y").data.length = 1 := by decide
    simp [cellScore, h1, h2]
  have hp : cellScore "Product" = 6 / 5 := by
    have h1 : (keywordHints.any fun k => includesStr (lowerString "Product") k) = true := by decide
    have h2 : (lowerString "Product").data.length = 7 := by decide
    simp [cellScore, h1, h2]
    norm_num
  have htr : cellScore "Transport_kgCO2e" = 6 / 5 := by
    have h1 : (keywordHints.any fun k => includesStr (lowerString "Transport_kgCO2e") k) = true := by decide
    have h2 : (lowerString "Transport_kgCO2e").data.length = 16 := by decide
    simp [cellScore, h1, h2]
    norm_num
  have hu : cellScore "Use_kWh_per_year" = 6 / 5 := by
    have h1 : (keywordHints.any fun k => includesStr (lowerString "Use_kWh_per_year") k) = true := by decide
    have h2 : (lowerString "Use_kWh_per_year").data.length = 16 := by decide
    simp [cellScore, h1, h2]
    norm_num
  have hr0 : rowScore ["x", "y"] = 2 / 5 := by
    simp [rowScore, hx, hy]
    norm_num
  have hr1 : rowScore ["Product", "Transport_kgCO2e", "Use_kWh_per_year"] = 18 / 5 := by
    simp [rowScore, hp, htr, hu]
    norm_num
  simp [autoDetectHeaderRow, bestRowAux, hr0, hr1]
  norm_num

/-- C7: header detection looks at most at the first 20 rows, scores each
row as the sum over cells of +1 for a keyword hit plus +0.2 for a
non-empty cell, and returns the lowest maximum-scoring row index; on the
spec's example rows it selects index 1. -/
theorem autoDetectHeaderRow_max_score (rows : List (List String)) (hne : rows ≠ []) :
    (autoDetectHeaderRow [["x", "y"], ["Product", "Transport_kgCO2e", "Use_kWh_per_year"]] = 1) ∧
    autoDetectHeaderRow rows < (rows.take 20).length ∧
    (∀ j, j < (rows.take 20).length →
      rowScore ((rows.take 20).getD j []) ≤
        rowScore ((rows.take 20).getD (autoDetectHeaderRow rows) [])) ∧
    (∀ j, j < autoDetectHeaderRow rows →
      rowScore ((rows.take 20).getD j []) <
        rowScore ((rows.take 20).getD (autoDetectHeaderRow rows) [])) ∧
    autoDetectHeaderRow rows = autoDetectHeaderRow (rows.take 20) := by
  have htt : autoDetectHeaderRow rows = autoDetectHeaderRow (rows.take 20) := by
    simp [autoDetectHeaderRow, List.take_take]
  obtain ⟨r, rs, ht⟩ : ∃ r rs, rows.take 20 = r :: rs := by
    cases h : rows.take 20 with
    | nil =>
      rw [List.take_eq_nil_iff] at h
      rcases h with h | h
      · exact absurd h (by norm_num)
      · exact absurd h hne
    | cons r rs => exact ⟨r, rs, rfl⟩
  have hstep : bestRowAux 0 none (r :: rs) = bestRowAux 1 (some (0, rowScore r)) rs := by
    simp [bestRowAux]
  have hdet : autoDetectHeaderRow rows =
      match (bestRowAux 1 (some (0, rowScore r)) rs).2 with
      | none => 0
      | some b => b.1 := by
    rw [autoDetectHeaderRow, ht, hstep]
  rcases bestRowAux_some_spec rs 1 (0, rowScore r) with ⟨heq, hall⟩ | ⟨k, hk, heq, hlt, hall, hstrict⟩
  · have hidx : autoDetectHeaderRow rows = 0 := by
      rw [hdet, heq]
    refine ⟨bestRow_example_eval, ?_, ?_, ?_, htt⟩
    · rw [hidx, ht]
      simp
    · intro j hj
      rw [hidx, ht]
      rw [ht] at hj
      cases j with
      | zero => simp
      | succ j =>
        simp only [List.getD_cons_succ, List.getD_cons_zero]
        exact hall j (by simpa using hj)
    · intro j hj
      rw [hidx] at hj
      omega
  · have hidx : autoDetectHeaderRow rows = k + 1 := by
      rw [hdet, heq]
      show 1 + k = k + 1
      omega
    refine ⟨bestRow_example_eval, ?_, ?_, ?_, htt⟩
    · rw [hidx, ht]
      simpa using hk
    · intro j hj
      rw [hidx, ht]
      rw [ht] at hj
      simp only [List.getD_cons_succ]
      cases j with
      | zero =>
        simp only [List.getD_cons_zero]
        exact le_of_lt (by simpa using hlt)
      | succ j =>
        simp only [List.getD_cons_succ]
        exact hall j (by simpa using hj)
    · intro j hj
      rw [hidx] at hj
      rw [hidx, ht]
      simp only [List.getD_cons_succ]
      cases j with
      | zero =>
        simp only [List.getD_cons_zero]
        simpa using hlt
      | succ j =>
        simp only [List.getD_cons_succ]
        exact hstrict j (by omega)

/-- Witness for C7 on the spec's example rows. -/
theorem autoDetectHeaderRow_max_score_witness :
    autoDetectHeaderRow [["x", "y"], ["Product", "Transport_kgCO2e", "Use_kWh_per_year"]] <
      (([["x", "y"], ["Product", "Transport_kgCO2e", "Use_kWh_per_year"]].take 20).length) :=
  (autoDetectHeaderRow_max_score
    [["x", "y"], ["Product", "Transport_kgCO2e", "Use_kWh_per_year"]] (by decide)).2.1

/-- An issue appears in the indexed validation loop started at `n` exactly
when some record at offset `j` contributes it with 1-based row `n+j+1`. -/
theorem mem_validateAux (records : List MappedRecord) : ∀ (n : ℕ) (iss : ValidationIssue),
    iss ∈ validateAux n records ↔
      ∃ j r, records[j]? = some r ∧ iss ∈ recordIssues (n + j + 1) r := by
  induction records with
  | nil =>
    intro n iss
    simp [validateAux]
  | cons r rs ih =>
    intro n iss
    simp only [validateAux, List.mem_append, ih (n + 1)]
    constructor
    · rintro (h | ⟨j, r', hj, hmem⟩)
      · exact ⟨0, r, by simp, by simpa using h⟩
      · refine ⟨j + 1, r', by simpa using hj, ?_⟩
        have hn : n + 1 + j + 1 = n + (j + 1) + 1 := by omega
        rwa [hn] at hmem
    · rintro ⟨j, r', hj, hmem⟩
      cases j with
      | zero =>
        left
        simp only [List.getElem?_cons_zero, Option.some.injEq] at hj
        subst hj
        simpa using hmem
      | succ j =>
        right
        refine ⟨j, r', by simpa using hj, ?_⟩
        have hn : n + (j + 1) + 1 = n + 1 + j + 1 := by omega
        rwa [hn] at hmem

/-- An issue of one record comes from one of the four required fields. -/
theorem mem_recordIssues (row : ℕ) (r : MappedRecord) (iss : ValidationIssue) :
    iss ∈ recordIssues row r ↔ ∃ f : ReqField, issueFor row f (reqFieldVal r f) = some iss := by
  simp only [recordIssues, reqFields, List.flatMap_cons, List.flatMap_nil, List.mem_append,
    List.mem_nil_iff, or_false, Option.mem_toList, Option.mem_def]
  constructor
  · rintro (h | h | h | h)
    exacts [⟨.transport, h⟩, ⟨.materialsF, h⟩, ⟨.production, h⟩, ⟨.useF, h⟩]
  · rintro ⟨f, hf⟩
    cases f
    exacts [Or.inl hf, Or.inr (Or.inl hf), Or.inr (Or.inr (Or.inl hf)),
      Or.inr (Or.inr (Or.inr hf))]

/-- The four reported field names are distinct. -/
theorem reqFieldName_inj (f g : ReqField) (h : reqFieldName f = reqFieldName g) : f = g := by
  cases f <;> cases g <;> first | rfl | (exfalso; revert h; decide)

/-- Every issue produced for a field carries that row and field name. -/
theorem issueFor_rowIndex (row : ℕ) (f : ReqField) (v : Option ℚ) (iss : ValidationIssue)
    (h : issueFor row f v = some iss) : iss.rowIndex = row ∧ iss.field = reqFieldName f := by
  cases v with
  | none =>
    simp only [issueFor, Option.some.injEq] at h
    subst h
    exact ⟨rfl, rfl⟩
  | some q =>
    simp only [issueFor] at h
    split_ifs at h <;> simp only [Option.some.injEq] at h <;> (subst h; exact ⟨rfl, rfl⟩)

/-- The missing-value issue appears exactly for a null (or NaN) value. -/
theorem issueFor_missing_iff (row : ℕ) (f : ReqField) (v : Option ℚ) :
    issueFor row f v = some ⟨row, reqFieldName f, .error, "Missing required value"⟩ ↔ v = none := by
  cases v with
  | none => simp [issueFor]
  | some q =>
    simp only [issueFor, Option.some.injEq]
    split_ifs <;> simp [ValidationIssue.mk.injEq]

/-- The negative-value issue appears exactly for a value below zero. -/
theorem issueFor_negative_iff (row : ℕ) (f : ReqField) (v : Option ℚ) :
    issueFor row f v = some ⟨row, reqFieldName f, .error, "Negative value"⟩ ↔
      ∃ q, v = some q ∧ q < 0 := by
  cases v with
  | none => simp [issueFor]
  | some q =>
    simp only [issueFor, Option.some.injEq]
    split_ifs with h1 h2 <;> simp [ValidationIssue.mk.injEq] <;>
      first
        | exact h1
        | linarith [not_lt.mp h1]

/-- The suspiciously-large warning appears exactly above 1e7. -/
theorem issueFor_warning_iff (row : ℕ) (f : ReqField) (v : Option ℚ) :
    issueFor row f v = some ⟨row, reqFieldName f, .warning, "Suspiciously large"⟩ ↔
      ∃ q, v = some q ∧ q > 10 ^ 7 := by
  cases v with
  | none => simp [issueFor]
  | some q =>
    simp only [issueFor, Option.some.injEq]
    split_ifs with h1 h2 <;> simp [ValidationIssue.mk.injEq] <;>
      first
        | exact h2
        | linarith

/-- A severity is either error or warning. -/
theorem severity_cases (iss : ValidationIssue) :
    iss.severity = Severity.error ∨ iss.severity = Severity.warning := by
  obtain ⟨_, _, sev, _⟩ := iss
  cases sev
  · exact Or.inl rfl
  · exact Or.inr rfl

/-- Membership in `validate`'s issue list, unfolded to per-record,
per-field issue generation. -/
theorem mem_validate_issues (records : List MappedRecord) (iss : ValidationIssue) :
    iss ∈ (validate records).issues ↔
      ∃ j r', records[j]? = some r' ∧
        ∃ f : ReqField, issueFor (j + 1) f (reqFieldVal r' f) = some iss := by
  show iss ∈ validateAux 0 records ↔ _
  rw [mem_validateAux]
  simp only [zero_add, mem_recordIssues]

/-- C6: `validate` reports, per record (1-based row) and per required
field, an error for a null/NaN value, an error for a negative value and a
warning above 1e7; the aggregate status is red iff an error exists, amber
iff there is no error but at least one warning, green otherwise; and the
spec's example record yields exactly the three stated issues and red. -/
theorem validate_issues_and_status (records : List MappedRecord) :
    (∀ (i : ℕ) (r : MappedRecord), records[i]? = some r → ∀ f : ReqField,
      (((⟨i + 1, reqFieldName f, .error, "Missing required value"⟩ : ValidationIssue) ∈
          (validate records).issues) ↔ reqFieldVal r f = none) ∧
      (((⟨i + 1, reqFieldName f, .error, "Negative value"⟩ : ValidationIssue) ∈
          (validate records).issues) ↔ ∃ q, reqFieldVal r f = some q ∧ q < 0) ∧
      (((⟨i + 1, reqFieldName f, .warning, "Suspiciously large"⟩ : ValidationIssue) ∈
          (validate records).issues) ↔ ∃ q, reqFieldVal r f = some q ∧ q > 10 ^ 7)) ∧
    ((validate records).status = .red ↔
      ∃ iss ∈ (validate records).issues, iss.severity = .error) ∧
    ((validate records).status = .amber ↔
      (¬ ∃ iss ∈ (validate records).issues, iss.severity = .error) ∧
      ∃ iss ∈ (validate records).issues, iss.severity = .warning) ∧
    ((validate records).status = .green ↔
      (¬ ∃ iss ∈ (validate records).issues, iss.severity = .error) ∧
      ¬ ∃ iss ∈ (validate records).issues, iss.severity = .warning) ∧
    (validate [badRecord] = { status := .red, issues := [
        ⟨1, "Transport_kgCO2e", .error, "Missing required value"⟩,
        ⟨1, "Materials_kgCO2e", .error, "Negative value"⟩,
        ⟨1, "Use_kWh_per_year", .warning, "Suspiciously large"⟩] }) := by
  have hfwd : ∀ (i : ℕ) (r : MappedRecord), records[i]? = some r →
      ∀ (f : ReqField) (sev : Severity) (msg : String),
      (⟨i + 1, reqFieldName f, sev, msg⟩ : ValidationIssue) ∈ (validate records).issues →
      issueFor (i + 1) f (reqFieldVal r f) =
        some ⟨i + 1, reqFieldName f, sev, msg⟩ := by
    intro i r hri f sev msg hmem
    rw [mem_validate_issues] at hmem
    obtain ⟨j, r', hj, f', hf'⟩ := hmem
    obtain ⟨hrow, hfield⟩ := issueFor_rowIndex _ _ _ _ hf'
    simp only at hrow hfield
    have hij : j = i := by omega
    subst hij
    have hr : r' = r := by
      rw [hj] at hri
      exact Option.some.inj hri
    subst hr
    have hff : f' = f := reqFieldName_inj f' f hfield.symm
    subst hff
    exact hf'
  refine ⟨?_, ?_, ?_, ?_, ?_⟩
  · intro i r hri f
    refine ⟨⟨?_, ?_⟩, ⟨?_, ?_⟩, ⟨?_, ?_⟩⟩
    · intro hmem
      exact (issueFor_missing_iff (i + 1) f _).mp (hfwd i r hri f _ _ hmem)
    · intro hv
      rw [mem_validate_issues]
      exact ⟨i, r, hri, f, (issueFor_missing_iff (i + 1) f _).mpr hv⟩
    · intro hmem
      exact (issueFor_negative_iff (i + 1) f _).mp (hfwd i r hri f _ _ hmem)
    · intro hv
      rw [mem_validate_issues]
      exact ⟨i, r, hri, f, (issueFor_negative_iff (i + 1) f _).mpr hv⟩
    · intro hmem
      exact (issueFor_warning_iff (i + 1) f _).mp (hfwd i r hri f _ _ hmem)
    · intro hv
      rw [mem_validate_issues]
      exact ⟨i, r, hri, f, (issueFor_warning_iff (i + 1) f _).mpr hv⟩
  · show (validate records).status = .red ↔ _
    constructor
    · intro h
      by_cases h1 : (validateAux 0 records).any (fun i => i.severity = Severity.error)
      · simpa [List.any_eq_true] using h1
      · by_cases h2 : (validateAux 0 records).length ≠ 0 <;>
          simp [validate, h1, h2] at h
    · intro hex
      have h1 : (validateAux 0 records).any (fun i => i.severity = Severity.error) := by
        simpa [List.any_eq_true] using hex
      simp [validate, h1]
  · constructor
    · intro h
      by_cases h1 : (validateAux 0 records).any (fun i => i.severity = Severity.error)
      · simp [validate, h1] at h
      · by_cases h2 : (validateAux 0 records).length ≠ 0
        · constructor
          · simpa [List.any_eq_true] using h1
          · have hne : validateAux 0 records ≠ [] := by
              intro hnil
              exact h2 (by simp [hnil])
            obtain ⟨iss, hiss⟩ := List.exists_mem_of_ne_nil _ hne
            rcases severity_cases iss with he | hw
            · exact absurd (by simpa [List.any_eq_true] using ⟨iss, hiss, he⟩) h1
            · exact ⟨iss, hiss, hw⟩
        · simp [validate, h1, h2] at h
    · rintro ⟨hno, iss, hiss, hw⟩
      have h1 : ¬ (validateAux 0 records).any (fun i => i.severity = Severity.error) := by
        simpa [List.any_eq_true] using hno
      have h2 : (validateAux 0 records).length ≠ 0 := by
        have : validateAux 0 records ≠ [] := List.ne_nil_of_mem hiss
        simpa [List.length_eq_zero] using this
      simp [validate, h1, h2]
  · constructor
    · intro h
      by_cases h1 : (validateAux 0 records).any (fun i => i.severity = Severity.error)
      · simp [validate, h1] at h
      · by_cases h2 : (validateAux 0 records).length ≠ 0
        · simp [validate, h1, h2] at h
        · have hnil : validateAux 0 records = [] := by
            simpa [List.length_eq_zero] using h2
          constructor <;> simp [validate, hnil]
    · rintro ⟨hno, hnw⟩
      have h1 : ¬ (validateAux 0 records).any (fun i => i.severity = Severity.error) := by
        simpa [List.any_eq_true] using hno
      have h2 : ¬ (validateAux 0 records).length ≠ 0 := by
        by_contra h2
        have hne : validateAux 0 records ≠ [] := by
          intro hnil
          exact h2 (by simp [hnil])
        obtain ⟨iss, hiss⟩ := List.exists_mem_of_ne_nil _ hne
        rcases severity_cases iss with he | hw
        · exact h1 (by simpa [List.any_eq_true] using ⟨iss, hiss, he⟩)
        · exact hnw ⟨iss, hiss, hw⟩
      simp [validate, h1, h2]
  · have hneg : (-5 : ℚ) < 0 := by norm_num
    have hbig : ((10 : ℚ) ^ 8 > 10 ^ 7) := by norm_num
    simp [validate, validateAux, recordIssues, reqFields, issueFor, reqFieldVal,
      reqFieldName, badRecord]
    norm_num

/-- Witness for C6 at the example record, row 0, field transport. -/
theorem validate_issues_and_status_witness :
    ((⟨1, "Transport_kgCO2e", Severity.error, "Missing required value"⟩ : ValidationIssue) ∈
        (validate [badRecord]).issues ↔ reqFieldVal badRecord ReqField.transport = none) :=
  ((validate_issues_and_status [badRecord]).1 0 badRecord rfl ReqField.transport).1
